import Mathlib

/-!
# Verification of the CareerForge local secrets vault (`secrets_utils.py`)

Shallow embedding of the vault subsystem: key entries, the on-disk store,
the load state machine, encryption-enable and the two save paths,
together with proofs of the specified properties.

The cryptography (`cryptography.fernet` + PBKDF2) and the `json`
serializer are external libraries; they are idealized by their
documented contracts: the derived key is determined by (password, salt),
a Fernet ciphertext decrypts exactly under the key that produced it and
yields the exact plaintext (authenticated encryption), and
`json.loads (json.dumps d) = d` for the JSON-serializable dicts the
vault encrypts.  Everything the repository's own code does around those
primitives (salt hex round-trip, field plumbing, state machine,
filtering, normalization) is modelled faithfully.
-/

/-- One stored credential in the structured (dict) shape: the Python dicts
may lack any of `name`, `key`, `source`, hence `Option` fields
(`dict.get` returns `None` for a missing field). -/
structure KeyObj where
  name : Option String := none
  key : Option String := none
  source : Option String := none
deriving DecidableEq, Repr

/-- One entry of a provider key list: either a bare legacy string or a
structured dict (`KeyEntry` of the spec). -/
inductive KeyEntry where
  | str (s : String)
  | obj (o : KeyObj)
deriving DecidableEq, Repr

/-- The JSON payload that gets encrypted: a dict with the two provider
lists, each possibly absent (`decrypted.get(k, [])` in the code). -/
structure Payload where
  openai_keys : Option (List KeyEntry) := none
  gemini_keys : Option (List KeyEntry) := none
deriving DecidableEq, Repr

/-- A Fernet ciphertext, idealized per the library contract: it is opaque
to anyone without the key, determines the derivation key that produced it
(authentication), and decrypts to the exact plaintext. -/
structure Ciphertext where
  key : String × List Nat
  payload : Payload
deriving DecidableEq, Repr

/-- An on-disk JSON dict.  A legacy plaintext store uses the two list
fields; an encrypted store uses `version`/`salt`/`data`.  Any field may
be absent. -/
structure DiskDict where
  version : Option Int := none
  salt : Option String := none
  data : Option Ciphertext := none
  openai_keys : Option (List KeyEntry) := none
  gemini_keys : Option (List KeyEntry) := none
deriving DecidableEq, Repr

/-- What `open` + `json.load` of the secrets file can observe: no file, a
read/parse failure (exception), a JSON value that is not a dict, or a
dict. -/
inductive DiskContent where
  | absent
  | invalid
  | nondict
  | dict (d : DiskDict)
deriving DecidableEq, Repr

/-- Result of `load_secrets`. -/
structure LoadResult where
  openai_keys : List KeyEntry
  gemini_keys : List KeyEntry
  is_encrypted : Bool
  requires_unlock : Bool
deriving DecidableEq, Repr

/-- Python string slice `s[-4:]`: the last four characters, or the whole
string when it is no longer than four characters. -/
def pyTail4 (s : String) : String :=
  s.drop (s.length - 4)

/-- Lower-case hex digit of a nibble, as produced by `bytes.hex()`. -/
def hexDigitChar (n : Nat) : Char :=
  if n < 10 then Char.ofNat (48 + n) else Char.ofNat (87 + n)

/-- Hex characters of a byte string (`salt.hex()`). -/
def hexChars : List Nat → List Char
  | [] => []
  | b :: bs => hexDigitChar (b / 16) :: hexDigitChar (b % 16) :: hexChars bs

/-- `salt.hex()`: the lower-case hex encoding of the salt bytes. -/
def bytesToHex (bs : List Nat) : String :=
  ⟨hexChars bs⟩

/-- Value of one hex digit, accepting both cases like `bytes.fromhex`. -/
def hexDigitVal (c : Char) : Option Nat :=
  if '0' ≤ c ∧ c ≤ '9' then some (c.toNat - 48)
  else if 'a' ≤ c ∧ c ≤ 'f' then some (c.toNat - 87)
  else if 'A' ≤ c ∧ c ≤ 'F' then some (c.toNat - 55)
  else none

/-- Pairwise hex decoding; `none` models `bytes.fromhex` raising. -/
def hexCharsToBytes : List Char → Option (List Nat)
  | [] => some []
  | [_] => none
  | c1 :: c2 :: rest =>
    match hexDigitVal c1, hexDigitVal c2, hexCharsToBytes rest with
    | some h, some l, some bs => some ((16 * h + l) :: bs)
    | _, _, _ => none

/-- `bytes.fromhex` on a string. -/
def hexToBytes (s : String) : Option (List Nat) :=
  hexCharsToBytes s.data

/-- `_derive_key`: PBKDF2-HMAC-SHA256 idealized as the injective function
of its inputs — the derived key is determined by, and determines,
(password, salt). -/
def derive_key (password : String) (salt : List Nat) : String × List Nat :=
  (password, salt)

/-- `encrypt_data`: derive a key from the password and the (caller-supplied
random) salt, encrypt the JSON payload, and return the versioned store
`{"version": 1, "salt": salt.hex(), "data": ciphertext}`. -/
def encrypt_data (data_dict : Payload) (password : String) (salt : List Nat) : DiskDict :=
  { version := some 1
    salt := some (bytesToHex salt)
    data := some { key := derive_key password salt, payload := data_dict } }

/-- `decrypt_data`: read the hex salt and the ciphertext from the store,
re-derive the key and decrypt.  `none` models the Python function
raising (missing field, bad hex, or `InvalidToken` from a key that does
not match the ciphertext). -/
def decrypt_data (store : DiskDict) (password : String) : Option Payload :=
  match store.salt, store.data with
  | some saltHex, some ct =>
    match hexToBytes saltHex with
    | some salt => if ct.key = derive_key password salt then some ct.payload else none
    | none => none
  | _, _ => none

theorem hexDigitVal_hexDigitChar : ∀ n < 16, hexDigitVal (hexDigitChar n) = some n := by
  decide

theorem hexCharsToBytes_hexChars (bs : List Nat) (h : ∀ b ∈ bs, b < 256) :
    hexCharsToBytes (hexChars bs) = some bs := by
  induction bs with
  | nil => rfl
  | cons b bs ih =>
    have hb : b < 256 := h b (List.mem_cons_self b bs)
    have h1 : b / 16 < 16 := Nat.div_lt_of_lt_mul (by omega)
    have h2 : b % 16 < 16 := Nat.mod_lt _ (by omega)
    have e1 := hexDigitVal_hexDigitChar _ h1
    have e2 := hexDigitVal_hexDigitChar _ h2
    have ih' := ih (fun x hx => h x (List.mem_cons_of_mem b hx))
    simp [hexChars, hexCharsToBytes, e1, e2, ih']
    omega

theorem hexToBytes_bytesToHex (bs : List Nat) (h : ∀ b ∈ bs, b < 256) :
    hexToBytes (bytesToHex bs) = some bs :=
  hexCharsToBytes_hexChars bs h

/-- Shared round-trip lemma: decrypting an `encrypt_data` store with the
password that produced it recovers the payload, provided the salt is a
genuine byte string (as `os.urandom` yields). -/
theorem decrypt_encrypt (d : Payload) (p : String) (salt : List Nat)
    (h : ∀ b ∈ salt, b < 256) :
    decrypt_data (encrypt_data d p salt) p = some d := by
  simp [decrypt_data, encrypt_data, hexToBytes_bytesToHex salt h]

/-- Shared rejection lemma: a store encrypted under password `A` never
decrypts under a different password `B`. -/
theorem decrypt_encrypt_ne (d : Payload) (A B : String) (salt : List Nat)
    (h : B ≠ A) :
    decrypt_data (encrypt_data d A salt) B = none := by
  simp only [decrypt_data, encrypt_data]
  cases hx : hexToBytes (bytesToHex salt) with
  | none => rfl
  | some salt' =>
    simp only [derive_key]
    have hk : ((A, salt) : String × List Nat) ≠ (B, salt') := by
      intro hk
      exact h (congrArg Prod.fst hk).symm
    simp [hk]

/-- Claim C4: for every (non-empty) password and every JSON-serializable
dict of KeyEntry lists, `decrypt_data (encrypt_data data password) password
= data` (the salt being the byte string drawn by `os.urandom`). -/
theorem encrypt_decrypt_roundtrip (data : Payload) (password : String) (salt : List Nat)
    (hpw : password ≠ "") (hsalt : ∀ b ∈ salt, b < 256) :
    decrypt_data (encrypt_data data password salt) password = some data :=
  decrypt_encrypt data password salt hsalt

theorem encrypt_decrypt_roundtrip_witness :
    ("pw" : String) ≠ "" ∧ (∀ b ∈ [7, 255], b < 256) ∧
      decrypt_data
        (encrypt_data { openai_keys := some [.str "sk-a", .obj { name := some "n", key := some "sk-b" }] } "pw" [7, 255])
        "pw"
      = some { openai_keys := some [.str "sk-a", .obj { name := some "n", key := some "sk-b" }] } :=
  ⟨by decide, by decide,
    encrypt_decrypt_roundtrip _ "pw" [7, 255] (by decide) (by decide)⟩

/-- Claim C5: a ciphertext store produced under password `A` fails to
decrypt under any password `B ≠ A`; decryption never silently yields
wrong or partial data. -/
theorem decrypt_wrong_password_fails (data : Payload) (A B : String) (salt : List Nat)
    (hne : B ≠ A) :
    decrypt_data (encrypt_data data A salt) B = none :=
  decrypt_encrypt_ne data A B salt hne

theorem decrypt_wrong_password_fails_witness :
    ("wrong" : String) ≠ "right" ∧
      decrypt_data (encrypt_data { openai_keys := some [.str "sk-a"] } "right" [0, 1]) "wrong" = none :=
  ⟨by decide, decrypt_wrong_password_fails _ "right" "wrong" [0, 1] (by decide)⟩

/-- Python truthiness of an optional string (`if password:` /
`if env_openai:`): truthy exactly when present and non-empty. -/
def truthy : Option String → Bool
  | some s => s ≠ ""
  | none => false

/-- The synthetic environment-sourced entry `load_secrets` injects. -/
def envEntry (label v : String) : KeyEntry :=
  .obj { name := some label, key := some v, source := some "env" }

/-- Disk phase of `load_secrets`: the state machine over the file content
and the optional password, before environment injection.  A missing
file, a read/parse exception and a non-dict JSON value all leave the
base result; a dict with `version >= 1` takes the encrypted path (with
decryption failure swallowed into `requires_unlock`); any other dict is
read as the legacy plaintext shape. -/
def loadDisk (disk : DiskContent) (password : Option String) : LoadResult :=
  let base : LoadResult :=
    { openai_keys := [], gemini_keys := [], is_encrypted := false, requires_unlock := false }
  match disk with
  | .dict d =>
    match d.version with
    | some v =>
      if 1 ≤ v then
        match password with
        | some pw =>
          if pw ≠ "" then
            match decrypt_data d pw with
            | some dec =>
              { base with is_encrypted := true
                          openai_keys := dec.openai_keys.getD []
                          gemini_keys := dec.gemini_keys.getD [] }
            | none => { base with is_encrypted := true, requires_unlock := true }
          else { base with is_encrypted := true, requires_unlock := true }
        | none => { base with is_encrypted := true, requires_unlock := true }
      else
        { base with openai_keys := d.openai_keys.getD []
                    gemini_keys := d.gemini_keys.getD [] }
    | none =>
      { base with openai_keys := d.openai_keys.getD []
                  gemini_keys := d.gemini_keys.getD [] }
  | _ => base

/-- Environment phase of `load_secrets`: prepend a `source="env"` entry to
each provider list whose environment variable is truthy. -/
def applyEnv (envOpenai envGemini : Option String) (s : LoadResult) : LoadResult :=
  let s1 :=
    if truthy envOpenai then
      { s with openai_keys := envEntry "ENV (OPENAI_API_KEY)" (envOpenai.getD "") :: s.openai_keys }
    else s
  if truthy envGemini then
    { s1 with gemini_keys := envEntry "ENV (GEMINI_API_KEY)" (envGemini.getD "") :: s1.gemini_keys }
  else s1

/-- `load_secrets`: the disk state machine followed by environment
injection.  A total function — every externally triggerable failure is
absorbed into the returned state. -/
def load_secrets (disk : DiskContent) (envOpenai envGemini : Option String)
    (password : Option String) : LoadResult :=
  applyEnv envOpenai envGemini (loadDisk disk password)

/-- The `NO_FILE` empty-state result, modulo environment injection. -/
def noFileResult (envOpenai envGemini : Option String) : LoadResult :=
  applyEnv envOpenai envGemini
    { openai_keys := [], gemini_keys := [], is_encrypted := false, requires_unlock := false }

/-- The `LOCKED` result, modulo environment injection. -/
def lockedResult (envOpenai envGemini : Option String) : LoadResult :=
  applyEnv envOpenai envGemini
    { openai_keys := [], gemini_keys := [], is_encrypted := true, requires_unlock := true }

/-- Claim C2: `load_secrets` never raises — a missing file, a read/parse
failure or a non-dict JSON value all yield the `NO_FILE` empty-state
result (modulo env-injected entries), and a bad password on a versioned
store yields the `LOCKED` state. -/
theorem load_secrets_degrades_total (envO envG : Option String) (pw : Option String) :
    load_secrets .absent envO envG pw = noFileResult envO envG
    ∧ load_secrets .invalid envO envG pw = noFileResult envO envG
    ∧ load_secrets .nondict envO envG pw = noFileResult envO envG
    ∧ ∀ (d : DiskDict) (pw' : String),
        (∃ v, d.version = some v ∧ 1 ≤ v) →
        (pw' = "" ∨ decrypt_data d pw' = none) →
        load_secrets (.dict d) envO envG (some pw') = lockedResult envO envG := by
  refine ⟨rfl, rfl, rfl, ?_⟩
  rintro d pw' ⟨v, hv, hv1⟩ hbad
  unfold load_secrets lockedResult
  congr 1
  simp only [loadDisk, hv, if_pos hv1]
  rcases hbad with h | h
  · simp [h]
  · by_cases hpw : pw' = ""
    · simp [hpw]
    · simp [hpw, h]

theorem load_secrets_degrades_total_witness :
    (∃ v, (encrypt_data { openai_keys := some [] } "p" [7]).version = some v ∧ 1 ≤ v)
    ∧ (("" : String) = "" ∨ decrypt_data (encrypt_data { openai_keys := some [] } "p" [7]) "" = none)
    ∧ load_secrets (.dict (encrypt_data { openai_keys := some [] } "p" [7])) none none (some "")
        = lockedResult none none :=
  ⟨⟨1, rfl, by decide⟩, Or.inl rfl,
    (load_secrets_degrades_total none none (some "")).2.2.2
      (encrypt_data { openai_keys := some [] } "p" [7]) ""
      ⟨1, rfl, by decide⟩ (Or.inl rfl)⟩

/-- Claim C3 counterexample: the claim quantifies over *every* password
`P` the store was produced under, but with `P = ""` (an empty password,
accepted by `encrypt_data`) the `if password:` truthiness test in
`load_secrets` treats the supplied correct password as absent: the store
was produced under `""` and holds a non-empty OpenAI list, yet
`load("")` returns `requires_unlock = True` with empty lists — not
`requires_unlock = False` with the payload lists as the claim states. -/
theorem load_empty_password_counterexample :
    (encrypt_data { openai_keys := some [.obj { name := some "n", key := some "sk-12345" }], gemini_keys := some [] } "" [7]).version = some 1
    ∧ load_secrets
        (.dict (encrypt_data { openai_keys := some [.obj { name := some "n", key := some "sk-12345" }], gemini_keys := some [] } "" [7]))
        none none (some "")
      = { openai_keys := [], gemini_keys := [], is_encrypted := true, requires_unlock := true } := by
  constructor
  · rfl
  · rfl

/-- Unfolding lemma: on a versioned dict with a truthy password, the disk
phase of `load_secrets` is decided by `decrypt_data`. -/
theorem loadDisk_dict_encrypted (d : DiskDict) (v : Int) (hv : d.version = some v)
    (h1 : 1 ≤ v) (pw : String) (hpw : pw ≠ "") :
    loadDisk (.dict d) (some pw)
      = match decrypt_data d pw with
        | some dec =>
          { openai_keys := dec.openai_keys.getD []
            gemini_keys := dec.gemini_keys.getD []
            is_encrypted := true
            requires_unlock := false }
        | none =>
          { openai_keys := [], gemini_keys := [], is_encrypted := true, requires_unlock := true } := by
  simp [loadDisk, hv, h1, hpw]

/-- Claim C3 (amended): for every encrypted store produced under a
*non-empty* password `P`, with no environment variables set, `load(P)`
returns `is_encrypted = True`, `requires_unlock = False` and both lists
from the decrypted payload; and for every password `Q ≠ P` (whose
decryption therefore fails), `load(Q)` returns the locked state with
empty lists, without raising. -/
theorem load_encrypted_roundtrip_amended (payload : Payload) (P : String) (salt : List Nat)
    (hP : P ≠ "") (hsalt : ∀ b ∈ salt, b < 256) :
    load_secrets (.dict (encrypt_data payload P salt)) none none (some P)
      = { openai_keys := payload.openai_keys.getD []
          gemini_keys := payload.gemini_keys.getD []
          is_encrypted := true
          requires_unlock := false }
    ∧ ∀ Q, Q ≠ P →
        load_secrets (.dict (encrypt_data payload P salt)) none none (some Q)
          = { openai_keys := [], gemini_keys := [], is_encrypted := true, requires_unlock := true } := by
  have hv : (encrypt_data payload P salt).version = some 1 := rfl
  constructor
  · unfold load_secrets
    rw [loadDisk_dict_encrypted _ 1 hv (by decide) P hP,
      decrypt_encrypt payload P salt hsalt]
    rfl
  · intro Q hQ
    unfold load_secrets
    by_cases hQe : Q = ""
    · subst hQe
      rfl
    · rw [loadDisk_dict_encrypted _ 1 hv (by decide) Q hQe,
        decrypt_encrypt_ne payload P Q salt hQ]
      rfl

theorem load_encrypted_roundtrip_witness :
    ("hunter2" : String) ≠ "" ∧ (∀ b ∈ [9], b < 256)
    ∧ load_secrets
        (.dict (encrypt_data { openai_keys := some [.obj { name := some "My Key", key := some "sk-test1234" }], gemini_keys := some [] } "hunter2" [9]))
        none none (some "hunter2")
      = { openai_keys := [.obj { name := some "My Key", key := some "sk-test1234" }]
          gemini_keys := []
          is_encrypted := true
          requires_unlock := false } :=
  ⟨by decide, by decide,
    (load_encrypted_roundtrip_amended
      { openai_keys := some [.obj { name := some "My Key", key := some "sk-test1234" }], gemini_keys := some [] }
      "hunter2" [9] (by decide) (by decide)).1⟩

/-- `mask_key_obj`: render a key entry as a human-safe label.  Bare
strings longer than four characters render as `Legacy (...tail)` and
short bare strings render as the key itself; dict entries render as
`name (...tail)` with `***` in place of the tail when the key has at
most four characters. -/
def mask_key_obj : KeyEntry → String
  | .str k => if 4 < k.length then "Legacy (..." ++ pyTail4 k ++ ")" else k
  | .obj o =>
    let name := o.name.getD "Unnamed"
    let k := o.key.getD ""
    let tail := if 4 < k.length then pyTail4 k else "***"
    name ++ " (..." ++ tail ++ ")"

/-- Claim C8 counterexample: the claim says a key of length at most four
renders its full short tail *in either shape*, but for the structured
(dict) shape the code substitutes the fully masked placeholder `***`:
the entry `{"name": "N", "key": "abcd"}` renders as `N (...***)`, not as
`N (...abcd)`. -/
theorem mask_key_obj_short_key_counterexample :
    mask_key_obj (.obj { name := some "N", key := some "abcd" }) = "N (...***)"
    ∧ mask_key_obj (.obj { name := some "N", key := some "abcd" }) ≠ "N (...abcd)" := by
  constructor
  · rfl
  · decide

/-- Claim C8 (amended): `mask_key_obj` is pure formatting; a structured
dict renders as `"{name} (...{last 4 chars of key})"` when the key is
longer than four characters and as `"{name} (...***)"` otherwise; a bare
string renders as `"Legacy (...{last 4 chars})"` when longer than four
characters, and a bare string of length at most four renders as the full
short key itself. -/
theorem mask_key_obj_spec_amended :
    (∀ o : KeyObj, 4 < (o.key.getD "").length →
      mask_key_obj (.obj o) = o.name.getD "Unnamed" ++ " (..." ++ pyTail4 (o.key.getD "") ++ ")")
    ∧ (∀ o : KeyObj, (o.key.getD "").length ≤ 4 →
      mask_key_obj (.obj o) = o.name.getD "Unnamed" ++ " (...***)")
    ∧ (∀ s : String, 4 < s.length → mask_key_obj (.str s) = "Legacy (..." ++ pyTail4 s ++ ")")
    ∧ (∀ s : String, s.length ≤ 4 → mask_key_obj (.str s) = s) := by
  refine ⟨?_, ?_, ?_, ?_⟩
  · intro o h
    simp [mask_key_obj, h]
  · intro o h
    simp only [mask_key_obj]
    rw [if_neg (Nat.not_lt.mpr h), String.append_assoc, String.append_assoc,
      show ((" (..." : String) ++ ("***" ++ ")")) = " (...***)" from rfl]
  · intro s h
    simp [mask_key_obj, h]
  · intro s h
    simp [mask_key_obj, Nat.not_lt.mpr h]

theorem mask_key_obj_spec_amended_witness :
    4 < ("sk-test1234" : String).length
    ∧ mask_key_obj (.obj { name := some "My Key", key := some "sk-test1234" })
        = "My Key" ++ " (..." ++ pyTail4 "sk-test1234" ++ ")"
    ∧ ("ab" : String).length ≤ 4
    ∧ mask_key_obj (.str "ab") = "ab" :=
  ⟨by decide, mask_key_obj_spec_amended.1 { name := some "My Key", key := some "sk-test1234" } (by decide),
    by decide, mask_key_obj_spec_amended.2.2.2 "ab" (by decide)⟩

/-- The `normalize` helper of `init_encryption`: bare strings become
structured entries named after the masked tail of the key; structured
entries pass through unchanged. -/
def normalizeKeyList (k_list : List KeyEntry) : List KeyEntry :=
  k_list.map fun item =>
    match item with
    | .str s => .obj { name := some ("Legacy Key (..." ++ pyTail4 s ++ ")"), key := some s }
    | .obj o => .obj o

/-- Claim C9: the bare-string-to-structured normalization of
`init_encryption` is idempotent — normalizing an already-normalized list
is a no-op. -/
theorem normalize_idempotent (l : List KeyEntry) :
    normalizeKeyList (normalizeKeyList l) = normalizeKeyList l := by
  induction l with
  | nil => rfl
  | cons x xs ih =>
    cases x with
    | str s => simp [normalizeKeyList] at ih ⊢; exact ih
    | obj o => simp [normalizeKeyList] at ih ⊢; exact ih

/-- The env filter of `init_encryption`: keeps a dict entry when its
`source` is not `"env"`, and keeps every bare string (Python's
`isinstance(k, dict) and k.get("source") != "env" or isinstance(k, str)`,
with `and` binding tighter than `or`). -/
def cleanFilter (l : List KeyEntry) : List KeyEntry :=
  l.filter fun k =>
    match k with
    | .obj o => o.source ≠ some "env"
    | .str _ => true

/-- `init_encryption`: load the currently accessible state with no
password, strip env entries, normalize bare strings, and write the
payload encrypted under the password and a fresh random salt.  The
returned dict is the file content written. -/
def init_encryption (disk : DiskContent) (envOpenai envGemini : Option String)
    (password : String) (salt : List Nat) : DiskDict :=
  let current := load_secrets disk envOpenai envGemini none
  let clean_openai := cleanFilter current.openai_keys
  let clean_gemini := cleanFilter current.gemini_keys
  encrypt_data
    { openai_keys := some (normalizeKeyList clean_openai)
      gemini_keys := some (normalizeKeyList clean_gemini) }
    password salt

/-- The filter of `save_secret_encrypted`: keeps only dict entries whose
`source` is not `"env"` (`isinstance(k, dict) and k.get("source") !=
"env"`) — bare strings are dropped. -/
def encFilter (l : List KeyEntry) : List KeyEntry :=
  l.filter fun k =>
    match k with
    | .obj o => o.source ≠ some "env"
    | .str _ => false

/-- `save_secret_encrypted`: load with the supplied password, filter both
lists, append the new structured entry to the target provider's list,
re-encrypt everything under a fresh salt and write.  `writeOk` models
whether the file write succeeds; the pair is (returned bool, file
content written, if any). -/
def save_secret_encrypted (disk : DiskContent) (envOpenai envGemini : Option String)
    (provider name key password : String) (salt : List Nat) (writeOk : Bool) :
    Bool × Option DiskDict :=
  let secrets := load_secrets disk envOpenai envGemini (some password)
  let isOpenai := provider = "OpenAI"
  let target := if isOpenai then secrets.openai_keys else secrets.gemini_keys
  let other := if isOpenai then secrets.gemini_keys else secrets.openai_keys
  let real_keys := encFilter target ++ [.obj { name := some name, key := some key }]
  let other_keys := encFilter other
  let to_encrypt : Payload :=
    if isOpenai then { openai_keys := some real_keys, gemini_keys := some other_keys }
    else { openai_keys := some other_keys, gemini_keys := some real_keys }
  let store := encrypt_data to_encrypt password salt
  if writeOk then (true, some store) else (false, none)

/-- Claim C1 evaluated at the failing input (the claim is right, the code
is wrong): on an encrypted store produced under password `"A"` holding
one OpenAI entry, `save_secret_encrypted` called with stale password
`"B"` does not return failure — the swallowed decryption failure leaves
empty lists, the new key is appended to them, and the function
re-encrypts *only the new key* under `"B"` and returns `True`,
destroying the previous entry.  Only a failing write returns `False`. -/
theorem save_secret_encrypted_stale_password_eval :
    save_secret_encrypted
        (.dict (encrypt_data
          { openai_keys := some [.obj { name := some "Old", key := some "sk-old" }]
            gemini_keys := some [] } "A" [1, 2]))
        none none "OpenAI" "New" "sk-new" "B" [3, 4] true
      = (true, some (encrypt_data
          { openai_keys := some [.obj { name := some "New", key := some "sk-new" }]
            gemini_keys := some [] } "B" [3, 4]))
    ∧ (save_secret_encrypted
        (.dict (encrypt_data
          { openai_keys := some [.obj { name := some "Old", key := some "sk-old" }]
            gemini_keys := some [] } "A" [1, 2]))
        none none "OpenAI" "New" "sk-new" "B" [3, 4] false).1 = false := by
  constructor
  · decide
  · decide

theorem str_not_mem_encFilter (s : String) (l : List KeyEntry) :
    KeyEntry.str s ∉ encFilter l := by
  intro h
  rw [encFilter, List.mem_filter] at h
  simp at h

/-- Claim C10: `save_secret_encrypted` retains in the re-encrypted file
only dict entries with `source ≠ "env"`; on an unlocked store it writes
`encFilter` of each decrypted list (plus the new entry), so every
bare-string entry of the decrypted payload is silently dropped from
disk. -/
theorem save_secret_encrypted_drops_bare_strings (payload : Payload)
    (P name key : String) (salt1 salt2 : List Nat)
    (hP : P ≠ "") (hsalt : ∀ b ∈ salt1, b < 256) :
    save_secret_encrypted (.dict (encrypt_data payload P salt1)) none none
        "OpenAI" name key P salt2 true
      = (true, some (encrypt_data
          { openai_keys := some (encFilter (payload.openai_keys.getD [])
              ++ [.obj { name := some name, key := some key }])
            gemini_keys := some (encFilter (payload.gemini_keys.getD [])) }
          P salt2))
    ∧ ∀ s : String,
        KeyEntry.str s ∉ encFilter (payload.openai_keys.getD [])
            ++ [KeyEntry.obj { name := some name, key := some key }]
        ∧ KeyEntry.str s ∉ encFilter (payload.gemini_keys.getD []) := by
  have hload : load_secrets (.dict (encrypt_data payload P salt1)) none none (some P)
      = { openai_keys := payload.openai_keys.getD []
          gemini_keys := payload.gemini_keys.getD []
          is_encrypted := true
          requires_unlock := false } := by
    unfold load_secrets
    rw [loadDisk_dict_encrypted _ 1 rfl (by decide) P hP,
      decrypt_encrypt payload P salt1 hsalt]
    rfl
  refine ⟨?_, ?_⟩
  · unfold save_secret_encrypted
    rw [hload]
    simp
  · intro s
    refine ⟨?_, str_not_mem_encFilter s _⟩
    intro h
    rcases List.mem_append.mp h with h | h
    · exact str_not_mem_encFilter s _ h
    · simp at h

theorem save_secret_encrypted_drops_bare_strings_witness :
    ("pw" : String) ≠ "" ∧ (∀ b ∈ [5], b < 256)
    ∧ save_secret_encrypted
        (.dict (encrypt_data { openai_keys := some [.str "sk-bare1234"], gemini_keys := some [] } "pw" [5]))
        none none "OpenAI" "New" "sk-new" "pw" [6] true
      = (true, some (encrypt_data
          { openai_keys := some [.obj { name := some "New", key := some "sk-new" }]
            gemini_keys := some [] } "pw" [6])) := by
  refine ⟨by decide, by decide, ?_⟩
  have h := (save_secret_encrypted_drops_bare_strings
    { openai_keys := some [.str "sk-bare1234"], gemini_keys := some [] }
    "pw" "New" "sk-new" [5] [6] (by decide) (by decide)).1
  simpa [encFilter] using h

/-- An entry is not environment-sourced: either a bare string, or a dict
whose `source` is not `"env"`. -/
def entryNotEnv : KeyEntry → Bool
  | .obj o => o.source ≠ some "env"
  | .str _ => true

/-- No entry of the list is environment-sourced. -/
def listNoEnv (l : List KeyEntry) : Bool :=
  l.all entryNotEnv

/-- No entry of either payload list is environment-sourced. -/
def payloadNoEnv (p : Payload) : Bool :=
  listNoEnv (p.openai_keys.getD []) && listNoEnv (p.gemini_keys.getD [])

/-- No entry anywhere in an on-disk dict — plaintext lists or encrypted
payload — is environment-sourced. -/
def dictNoEnv (d : DiskDict) : Bool :=
  listNoEnv (d.openai_keys.getD []) && listNoEnv (d.gemini_keys.getD []) &&
    (match d.data with
     | some ct => payloadNoEnv ct.payload
     | none => true)

/-- No entry anywhere in the on-disk content is environment-sourced. -/
def diskNoEnv : DiskContent → Bool
  | .dict d => dictNoEnv d
  | _ => true

theorem listNoEnv_normalize_cleanFilter (l : List KeyEntry) :
    listNoEnv (normalizeKeyList (cleanFilter l)) = true := by
  rw [listNoEnv, List.all_eq_true]
  intro x hx
  rw [normalizeKeyList, List.mem_map] at hx
  obtain ⟨y, hy, hxy⟩ := hx
  rw [cleanFilter, List.mem_filter] at hy
  cases y with
  | str s => subst hxy; rfl
  | obj o =>
    subst hxy
    simpa [entryNotEnv] using hy.2

theorem listNoEnv_encFilter (l : List KeyEntry) :
    listNoEnv (encFilter l) = true := by
  rw [listNoEnv, List.all_eq_true]
  intro x hx
  rw [encFilter, List.mem_filter] at hx
  cases x with
  | str s => simpa using hx.2
  | obj o => simpa [entryNotEnv] using hx.2

theorem listNoEnv_append (l1 l2 : List KeyEntry) :
    listNoEnv (l1 ++ l2) = (listNoEnv l1 && listNoEnv l2) :=
  List.all_append


theorem dictNoEnv_encrypt_data (p : Payload) (password : String) (salt : List Nat) :
    dictNoEnv (encrypt_data p password salt) = payloadNoEnv p :=
  rfl

/-- Decrypted data always comes from the ciphertext stored in the dict. -/
theorem decrypt_data_payload (d : DiskDict) (pw : String) (p : Payload)
    (h : decrypt_data d pw = some p) :
    ∃ ct, d.data = some ct ∧ ct.payload = p := by
  unfold decrypt_data at h
  cases hs : d.salt with
  | none => rw [hs] at h; exact absurd h (by simp)
  | some saltHex =>
    cases hd : d.data with
    | none => rw [hs, hd] at h; exact absurd h (by simp)
    | some ct =>
      rw [hs, hd] at h
      refine ⟨ct, rfl, ?_⟩
      cases hx : hexToBytes saltHex with
      | none => simp [hx] at h
      | some salt =>
        simp only [hx] at h
        by_cases hk : ct.key = derive_key pw salt
        · rw [if_pos hk] at h; exact Option.some.inj h
        · rw [if_neg hk] at h; exact absurd h (by simp)

/-- The disk phase of `load_secrets` never invents env-sourced entries:
if nothing on disk is env-sourced, the loaded lists are env-free. -/
theorem loadDisk_noEnv (d : DiskDict) (pw : Option String) (h : dictNoEnv d = true) :
    listNoEnv (loadDisk (.dict d) pw).openai_keys = true
    ∧ listNoEnv (loadDisk (.dict d) pw).gemini_keys = true := by
  rw [dictNoEnv, Bool.and_eq_true, Bool.and_eq_true] at h
  obtain ⟨⟨h1, h2⟩, h3⟩ := h
  cases hv : d.version with
  | none => constructor <;> simp [loadDisk, hv, h1, h2]
  | some v =>
    by_cases h1v : 1 ≤ v
    · cases pw with
      | none => constructor <;> simp [loadDisk, hv, h1v, listNoEnv]
      | some pw' =>
        by_cases hpw : pw' = ""
        · constructor <;> simp [loadDisk, hv, h1v, hpw, listNoEnv]
        · cases hdec : decrypt_data d pw' with
          | none => constructor <;> simp [loadDisk, hv, h1v, hpw, hdec, listNoEnv]
          | some dec =>
            obtain ⟨ct, hct, hpay⟩ := decrypt_data_payload d pw' dec hdec
            simp only [hct] at h3
            rw [hpay, payloadNoEnv, Bool.and_eq_true] at h3
            constructor <;> simp [loadDisk, hv, h1v, hpw, hdec, h3.1, h3.2]
    · constructor <;> simp [loadDisk, hv, h1v, h1, h2]

theorem applyEnv_some_openai (v : String) (hv : v ≠ "") (envG : Option String)
    (s : LoadResult) :
    (applyEnv (some v) envG s).openai_keys
      = envEntry "ENV (OPENAI_API_KEY)" v :: (applyEnv none envG s).openai_keys := by
  have htv : truthy (some v) = true := by simp [truthy, hv]
  have htn : truthy (none : Option String) = false := rfl
  unfold applyEnv
  rw [htv, htn]
  cases htg : truthy envG <;> simp

theorem applyEnv_some_gemini (v : String) (hv : v ≠ "") (envO : Option String)
    (s : LoadResult) :
    (applyEnv envO (some v) s).gemini_keys
      = envEntry "ENV (GEMINI_API_KEY)" v :: (applyEnv envO none s).gemini_keys := by
  have htv : truthy (some v) = true := by simp [truthy, hv]
  have htn : truthy (none : Option String) = false := rfl
  unfold applyEnv
  rw [htv, htn]
  cases hto : truthy envO <;> simp

/-- Python `isinstance(k, str)`. -/
def isStrEntry : KeyEntry → Bool
  | .str _ => true
  | .obj _ => false

/-- The duplicate test of `save_secret_plain`: a bare string equal to the
key, or a dict whose `key` field equals it. -/
def keyValueMatches (key : String) : KeyEntry → Bool
  | .str s => s = key
  | .obj o => o.key = some key

/-- The bare-string upgrade of `save_secret_plain`
(`{"name": f"Legacy (...{k[-4:]})", "key": k}`); dict entries are
untouched (the branch only runs on all-string lists). -/
def plainUpgrade (l : List KeyEntry) : List KeyEntry :=
  l.map fun k =>
    match k with
    | .str s => .obj { name := some ("Legacy (..." ++ pyTail4 s ++ ")"), key := some s }
    | .obj o => .obj o

/-- `data[target] = new_list`. -/
def setTargetList (d : DiskDict) (provider : String) (l : List KeyEntry) : DiskDict :=
  if provider = "OpenAI" then { d with openai_keys := some l }
  else { d with gemini_keys := some l }

/-- `if other not in data: data[other] = []`. -/
def fillOtherList (d : DiskDict) (provider : String) : DiskDict :=
  if provider = "OpenAI" then
    match d.gemini_keys with
    | none => { d with gemini_keys := some [] }
    | some _ => d
  else
    match d.openai_keys with
    | none => { d with openai_keys := some [] }
    | some _ => d

/-- `save_secret_plain`: read the raw JSON (skeleton if absent or
unreadable; a non-dict JSON value raises — `none`), then: if the target
list is all bare strings, upgrade it and append the new entry
*unconditionally* (a missing target field raises `KeyError` — `none`);
otherwise append the new entry only when no existing entry has the same
key value.  Finally default the other provider's field and write.  The
result is the file content written. -/
def save_secret_plain (disk : DiskContent) (provider key name : String) : Option DiskDict :=
  let dataOpt : Option DiskDict :=
    match disk with
    | .absent => some { openai_keys := some [], gemini_keys := some [] }
    | .invalid => some { openai_keys := some [], gemini_keys := some [] }
    | .nondict => none
    | .dict d => some d
  match dataOpt with
  | none => none
  | some d =>
    let tlist := if provider = "OpenAI" then d.openai_keys else d.gemini_keys
    if (tlist.getD []).all isStrEntry then
      match tlist with
      | none => none
      | some l =>
        some (fillOtherList (setTargetList d provider
          (plainUpgrade l ++ [.obj { name := some name, key := some key }])) provider)
    else
      let existing := tlist.getD []
      let newList :=
        if existing.any (keyValueMatches key) then existing
        else existing ++ [.obj { name := some name, key := some key }]
      some (fillOtherList (setTargetList d provider newList) provider)

/-- The target provider's list of an on-disk dict (empty when absent). -/
def targetListOf (d : DiskDict) (provider : String) : List KeyEntry :=
  (if provider = "OpenAI" then d.openai_keys else d.gemini_keys).getD []

/-- Claim C7 counterexample: starting from the plaintext store
`{"openai_keys": ["k1234"], "gemini_keys": []}`, which already contains
a bare entry whose key value is `"k1234"`, `save_secret_plain("OpenAI",
"k1234", "New")` takes the all-bare-strings upgrade branch and appends
unconditionally: the written list holds *two* entries with key value
`"k1234"`, so the claimed duplicate suppression does not hold there. -/
theorem save_secret_plain_dup_counterexample :
    (({ openai_keys := some [.str "k1234"], gemini_keys := some [] } : DiskDict).openai_keys.getD []).any
        (keyValueMatches "k1234") = true
    ∧ (save_secret_plain
        (.dict { openai_keys := some [.str "k1234"], gemini_keys := some [] })
        "OpenAI" "k1234" "New").map
          (fun d => (d.openai_keys.getD []).countP (keyValueMatches "k1234"))
      = some 2 := by
  constructor
  · decide
  · decide

theorem save_plain_dict_allstr (d : DiskDict) (provider key name : String) (l : List KeyEntry)
    (htl : (if provider = "OpenAI" then d.openai_keys else d.gemini_keys) = some l)
    (hall : l.all isStrEntry = true) :
    save_secret_plain (.dict d) provider key name
      = some (fillOtherList (setTargetList d provider
          (plainUpgrade l ++ [.obj { name := some name, key := some key }])) provider) := by
  simp [save_secret_plain, htl, hall]

theorem save_plain_dict_mixed (d : DiskDict) (provider key name : String)
    (hall : (targetListOf d provider).all isStrEntry = false) :
    save_secret_plain (.dict d) provider key name
      = some (fillOtherList (setTargetList d provider
          (if (targetListOf d provider).any (keyValueMatches key)
           then targetListOf d provider
           else targetListOf d provider ++ [.obj { name := some name, key := some key }]))
          provider) := by
  rw [targetListOf] at hall ⊢
  simp [save_secret_plain, hall]

theorem target_after_set (d : DiskDict) (provider : String) (L : List KeyEntry) :
    (if provider = "OpenAI"
      then (fillOtherList (setTargetList d provider L) provider).openai_keys
      else (fillOtherList (setTargetList d provider L) provider).gemini_keys) = some L := by
  by_cases hP : provider = "OpenAI"
  · cases hg : d.gemini_keys <;> simp [fillOtherList, setTargetList, hP, hg]
  · cases ho : d.openai_keys <;> simp [fillOtherList, setTargetList, hP, ho]

theorem all_isStrEntry_append_obj (l : List KeyEntry) (o : KeyObj) :
    (l ++ [KeyEntry.obj o]).all isStrEntry = false := by
  simp [List.all_append, isStrEntry]

theorem any_keyValue_append_new (l : List KeyEntry) (nm key : String) :
    (l ++ [KeyEntry.obj { name := some nm, key := some key }]).any (keyValueMatches key)
      = true := by
  simp [List.any_append, keyValueMatches]

theorem countP_plainUpgrade (key : String) (l : List KeyEntry) :
    (plainUpgrade l).countP (keyValueMatches key) = l.countP (keyValueMatches key) := by
  induction l with
  | nil => rfl
  | cons x xs ih =>
    cases x with
    | str s =>
      simp only [plainUpgrade, List.map_cons, List.countP_cons, keyValueMatches] at ih ⊢
      rw [ih]
      congr 1
      simp [Option.some.injEq]
    | obj o =>
      simp only [plainUpgrade, List.map_cons, List.countP_cons] at ih ⊢
      rw [ih]

theorem countP_zero_of_any_false (key : String) (l : List KeyEntry)
    (h : l.any (keyValueMatches key) = false) :
    l.countP (keyValueMatches key) = 0 := by
  rw [List.countP_eq_zero]
  intro a ha hpa
  rw [List.any_eq_true.mpr ⟨a, ha, hpa⟩] at h
  cases h

/-- Claim C7 (amended): the duplicate suppression of `save_secret_plain`
holds only when the target list is not composed entirely of bare
strings: in that mixed/structured case the entry is appended exactly
when no existing entry (bare string equal to the key, or dict with that
key value) already carries the identical key value (first two
conjuncts).  When the target list is all bare strings the upgrade
branch appends unconditionally (see the counterexample).  Calling the
operation twice with the same key value and different names, starting
from a target list with no entry of that key value, leaves exactly one
entry with that key value (third conjunct). -/
theorem save_secret_plain_dup_amended :
    (∀ (d : DiskDict) (provider key name : String),
      (targetListOf d provider).all isStrEntry = false →
      (targetListOf d provider).any (keyValueMatches key) = true →
      save_secret_plain (.dict d) provider key name
        = some (fillOtherList (setTargetList d provider (targetListOf d provider)) provider))
    ∧ (∀ (d : DiskDict) (provider key name : String),
      (targetListOf d provider).all isStrEntry = false →
      (targetListOf d provider).any (keyValueMatches key) = false →
      save_secret_plain (.dict d) provider key name
        = some (fillOtherList (setTargetList d provider
            (targetListOf d provider ++ [.obj { name := some name, key := some key }]))
            provider))
    ∧ (∀ (d : DiskDict) (provider key name1 name2 : String) (l : List KeyEntry),
      (if provider = "OpenAI" then d.openai_keys else d.gemini_keys) = some l →
      l.any (keyValueMatches key) = false →
      ∃ d1 d2, save_secret_plain (.dict d) provider key name1 = some d1
        ∧ save_secret_plain (.dict d1) provider key name2 = some d2
        ∧ (targetListOf d2 provider).countP (keyValueMatches key) = 1) := by
  refine ⟨?_, ?_, ?_⟩
  · intro d provider key name hall hany
    rw [save_plain_dict_mixed d provider key name hall, if_pos hany]
  · intro d provider key name hall hany
    rw [save_plain_dict_mixed d provider key name hall,
      if_neg (by rw [hany]; exact Bool.false_ne_true)]
  · intro d provider key n1 n2 l htl hnodup
    have hcount0 : l.countP (keyValueMatches key) = 0 :=
      countP_zero_of_any_false key l hnodup
    by_cases hstr : l.all isStrEntry = true
    · set L1 := plainUpgrade l ++ [KeyEntry.obj { name := some n1, key := some key }] with hL1
      set d1 := fillOtherList (setTargetList d provider L1) provider with hd1
      have htl1 : (if provider = "OpenAI" then d1.openai_keys else d1.gemini_keys) = some L1 :=
        target_after_set d provider L1
      have htlist1 : targetListOf d1 provider = L1 := by
        rw [targetListOf, htl1, Option.getD_some]
      have hall1 : L1.all isStrEntry = false := all_isStrEntry_append_obj _ _
      have hany1 : L1.any (keyValueMatches key) = true := any_keyValue_append_new _ _ _
      refine ⟨d1, fillOtherList (setTargetList d1 provider L1) provider,
        save_plain_dict_allstr d provider key n1 l htl hstr, ?_, ?_⟩
      · rw [save_plain_dict_mixed d1 provider key n2 (htlist1 ▸ hall1), htlist1, if_pos hany1]
      · have htl2 := target_after_set d1 provider L1
        rw [targetListOf, htl2, Option.getD_some, hL1, List.countP_append,
          countP_plainUpgrade, hcount0]
        simp [keyValueMatches]
    · have htlist : targetListOf d provider = l := by
        rw [targetListOf, htl, Option.getD_some]
      have hstr' : (targetListOf d provider).all isStrEntry = false := by
        rw [htlist]
        exact Bool.not_eq_true _ ▸ Bool.of_not_eq_true hstr
      set L1 := l ++ [KeyEntry.obj { name := some n1, key := some key }] with hL1
      set d1 := fillOtherList (setTargetList d provider L1) provider with hd1
      have htl1 : (if provider = "OpenAI" then d1.openai_keys else d1.gemini_keys) = some L1 :=
        target_after_set d provider L1
      have htlist1 : targetListOf d1 provider = L1 := by
        rw [targetListOf, htl1, Option.getD_some]
      have hall1 : L1.all isStrEntry = false := all_isStrEntry_append_obj _ _
      have hany1 : L1.any (keyValueMatches key) = true := any_keyValue_append_new _ _ _
      refine ⟨d1, fillOtherList (setTargetList d1 provider L1) provider, ?_, ?_, ?_⟩
      · rw [save_plain_dict_mixed d provider key n1 hstr',
          if_neg (by rw [htlist, hnodup]; exact Bool.false_ne_true), htlist]
      · rw [save_plain_dict_mixed d1 provider key n2 (htlist1 ▸ hall1), htlist1, if_pos hany1]
      · have htl2 := target_after_set d1 provider L1
        rw [targetListOf, htl2, Option.getD_some, hL1, List.countP_append, hcount0]
        simp [keyValueMatches]

theorem save_secret_plain_dup_amended_witness :
    ((if "OpenAI" = "OpenAI"
      then ({ openai_keys := some [], gemini_keys := some [] } : DiskDict).openai_keys
      else ({ openai_keys := some [], gemini_keys := some [] } : DiskDict).gemini_keys)
        = some [])
    ∧ ([] : List KeyEntry).any (keyValueMatches "sk-test1234") = false
    ∧ ∃ d1 d2,
        save_secret_plain (.dict { openai_keys := some [], gemini_keys := some [] })
          "OpenAI" "sk-test1234" "My Key" = some d1
        ∧ save_secret_plain (.dict d1) "OpenAI" "sk-test1234" "Other Name" = some d2
        ∧ (targetListOf d2 "OpenAI").countP (keyValueMatches "sk-test1234") = 1 :=
  ⟨by decide, by decide,
    save_secret_plain_dup_amended.2.2
      { openai_keys := some [], gemini_keys := some [] }
      "OpenAI" "sk-test1234" "My Key" "Other Name" [] (by decide) (by decide)⟩

theorem listNoEnv_plainUpgrade (l : List KeyEntry) (h : listNoEnv l = true) :
    listNoEnv (plainUpgrade l) = true := by
  rw [listNoEnv, List.all_eq_true] at h ⊢
  intro x hx
  rw [plainUpgrade, List.mem_map] at hx
  obtain ⟨y, hy, hxy⟩ := hx
  cases y with
  | str s => subst hxy; rfl
  | obj o => subst hxy; exact h _ hy

theorem dictNoEnv_fill_set (d : DiskDict) (provider : String) (L : List KeyEntry)
    (hd : dictNoEnv d = true) (hL : listNoEnv L = true) :
    dictNoEnv (fillOtherList (setTargetList d provider L) provider) = true := by
  rw [dictNoEnv, Bool.and_eq_true, Bool.and_eq_true] at hd
  obtain ⟨⟨h1, h2⟩, h3⟩ := hd
  by_cases hP : provider = "OpenAI"
  · cases hg : d.gemini_keys with
    | none =>
      have he : fillOtherList (setTargetList d provider L) provider
          = { d with openai_keys := some L, gemini_keys := some [] } := by
        simp [fillOtherList, setTargetList, hP, hg]
      rw [he, dictNoEnv, Bool.and_eq_true, Bool.and_eq_true]
      exact ⟨⟨hL, rfl⟩, h3⟩
    | some g =>
      have he : fillOtherList (setTargetList d provider L) provider
          = { d with openai_keys := some L } := by
        simp [fillOtherList, setTargetList, hP, hg]
      rw [he, dictNoEnv, Bool.and_eq_true, Bool.and_eq_true]
      exact ⟨⟨hL, h2⟩, h3⟩
  · cases ho : d.openai_keys with
    | none =>
      have he : fillOtherList (setTargetList d provider L) provider
          = { d with gemini_keys := some L, openai_keys := some [] } := by
        simp [fillOtherList, setTargetList, hP, ho]
      rw [he, dictNoEnv, Bool.and_eq_true, Bool.and_eq_true]
      exact ⟨⟨rfl, hL⟩, h3⟩
    | some g =>
      have he : fillOtherList (setTargetList d provider L) provider
          = { d with gemini_keys := some L } := by
        simp [fillOtherList, setTargetList, hP, ho]
      rw [he, dictNoEnv, Bool.and_eq_true, Bool.and_eq_true]
      exact ⟨⟨h1, hL⟩, h3⟩

/-- A plain save on an env-free dict writes an env-free dict: the entries
written are the original ones (possibly legacy-upgraded, which never
produces a `source` tag) plus the new untagged entry. -/
theorem save_plain_dict_noEnv (d : DiskDict) (provider key name : String) (d' : DiskDict)
    (hd : dictNoEnv d = true)
    (h : save_secret_plain (.dict d) provider key name = some d') :
    dictNoEnv d' = true := by
  have htno : listNoEnv (targetListOf d provider) = true := by
    rw [dictNoEnv, Bool.and_eq_true, Bool.and_eq_true] at hd
    rw [targetListOf]
    by_cases hP : provider = "OpenAI"
    · rw [if_pos hP]; exact hd.1.1
    · rw [if_neg hP]; exact hd.1.2
  have hnew : listNoEnv [KeyEntry.obj { name := some name, key := some key }] = true := rfl
  by_cases hstr : (targetListOf d provider).all isStrEntry = true
  · cases htl : (if provider = "OpenAI" then d.openai_keys else d.gemini_keys) with
    | none =>
      have hn : save_secret_plain (.dict d) provider key name = none := by
        simp [save_secret_plain, htl]
      rw [hn] at h
      cases h
    | some l =>
      have hl : targetListOf d provider = l := by
        rw [targetListOf, htl, Option.getD_some]
      have heq := save_plain_dict_allstr d provider key name l htl (hl ▸ hstr)
      rw [heq] at h
      rw [← Option.some.inj h]
      refine dictNoEnv_fill_set d provider _ hd ?_
      rw [listNoEnv_append, Bool.and_eq_true]
      exact ⟨listNoEnv_plainUpgrade l (hl ▸ htno), hnew⟩
  · have hstr' : (targetListOf d provider).all isStrEntry = false :=
      Bool.of_not_eq_true hstr
    have heq := save_plain_dict_mixed d provider key name hstr'
    rw [heq] at h
    rw [← Option.some.inj h]
    refine dictNoEnv_fill_set d provider _ hd ?_
    by_cases hany : (targetListOf d provider).any (keyValueMatches key) = true
    · rw [if_pos hany]; exact htno
    · rw [if_neg hany, listNoEnv_append, Bool.and_eq_true]
      exact ⟨htno, hnew⟩

/-- Claim C6: `load_secrets` inserts the env-sourced entry (tagged
`source = "env"`) at the front of its provider's list whenever the
corresponding environment variable is set (truthy); `init_encryption`
and `save_secret_encrypted` write files with no env-sourced entry
anywhere, unconditionally; `save_secret_plain` writes a file with no
env-sourced entry whenever the on-disk state has none (it reads the raw
file, so load-injected env entries never reach it); hence reloading a
written file with the environment variables unset never yields an
env-sourced entry (last conjunct, for any env-free on-disk dict). -/
theorem env_entries_front_and_never_persisted :
    (∀ (disk : DiskContent) (envG pw : Option String) (v : String), v ≠ "" →
      (load_secrets disk (some v) envG pw).openai_keys
        = envEntry "ENV (OPENAI_API_KEY)" v :: (load_secrets disk none envG pw).openai_keys)
    ∧ (∀ (disk : DiskContent) (envO pw : Option String) (v : String), v ≠ "" →
      (load_secrets disk envO (some v) pw).gemini_keys
        = envEntry "ENV (GEMINI_API_KEY)" v :: (load_secrets disk envO none pw).gemini_keys)
    ∧ (∀ (disk : DiskContent) (envO envG : Option String) (password : String) (salt : List Nat),
      dictNoEnv (init_encryption disk envO envG password salt) = true)
    ∧ (∀ (disk : DiskContent) (envO envG : Option String)
        (provider name key password : String) (salt : List Nat) (writeOk : Bool) (st : DiskDict),
      (save_secret_encrypted disk envO envG provider name key password salt writeOk).2 = some st →
      dictNoEnv st = true)
    ∧ (∀ (disk : DiskContent) (provider key name : String) (d' : DiskDict),
      diskNoEnv disk = true →
      save_secret_plain disk provider key name = some d' →
      dictNoEnv d' = true)
    ∧ (∀ (d : DiskDict) (pw : Option String), dictNoEnv d = true →
      listNoEnv (load_secrets (.dict d) none none pw).openai_keys = true
      ∧ listNoEnv (load_secrets (.dict d) none none pw).gemini_keys = true) := by
  refine ⟨?_, ?_, ?_, ?_, ?_, ?_⟩
  · intro disk envG pw v hv
    exact applyEnv_some_openai v hv envG (loadDisk disk pw)
  · intro disk envO pw v hv
    exact applyEnv_some_gemini v hv envO (loadDisk disk pw)
  · intro disk envO envG password salt
    unfold init_encryption
    rw [dictNoEnv_encrypt_data]
    simp only [payloadNoEnv, Option.getD_some, Bool.and_eq_true]
    exact ⟨listNoEnv_normalize_cleanFilter _, listNoEnv_normalize_cleanFilter _⟩
  · intro disk envO envG provider name key password salt writeOk st hst
    unfold save_secret_encrypted at hst
    cases writeOk with
    | false => exact absurd hst (by simp)
    | true =>
      simp only [if_pos rfl] at hst
      have hst' := Option.some.inj hst
      rw [← hst', dictNoEnv_encrypt_data]
      by_cases ho : provider = "OpenAI"
      · simp only [if_pos ho, payloadNoEnv, Option.getD_some, Bool.and_eq_true,
          listNoEnv_append]
        exact ⟨⟨listNoEnv_encFilter _, rfl⟩, listNoEnv_encFilter _⟩
      · simp only [if_neg ho, payloadNoEnv, Option.getD_some, Bool.and_eq_true,
          listNoEnv_append]
        exact ⟨listNoEnv_encFilter _, listNoEnv_encFilter _, rfl⟩
  · intro disk provider key name d' hno h
    cases disk with
    | absent =>
      have hconv : save_secret_plain .absent provider key name
          = save_secret_plain (.dict { openai_keys := some [], gemini_keys := some [] })
              provider key name := rfl
      rw [hconv] at h
      exact save_plain_dict_noEnv { openai_keys := some [], gemini_keys := some [] }
        provider key name d' (by decide) h
    | invalid =>
      have hconv : save_secret_plain .invalid provider key name
          = save_secret_plain (.dict { openai_keys := some [], gemini_keys := some [] })
              provider key name := rfl
      rw [hconv] at h
      exact save_plain_dict_noEnv { openai_keys := some [], gemini_keys := some [] }
        provider key name d' (by decide) h
    | nondict => simp [save_secret_plain] at h
    | dict d => exact save_plain_dict_noEnv d provider key name d' hno h
  · intro d pw h
    exact loadDisk_noEnv d pw h

theorem env_entries_front_and_never_persisted_witness :
    ("sk-env" : String) ≠ ""
    ∧ (load_secrets .absent (some "sk-env") none none).openai_keys
        = envEntry "ENV (OPENAI_API_KEY)" "sk-env"
            :: (load_secrets .absent none none none).openai_keys
    ∧ dictNoEnv (init_encryption .absent (some "sk-env") none "pw" [1]) = true
    ∧ (save_secret_encrypted .absent none none "OpenAI" "n" "k" "pw" [2] true).2
        = some (encrypt_data
            { openai_keys := some [.obj { name := some "n", key := some "k" }]
              gemini_keys := some [] } "pw" [2])
    ∧ dictNoEnv (encrypt_data
        { openai_keys := some [.obj { name := some "n", key := some "k" }]
          gemini_keys := some [] } "pw" [2]) = true
    ∧ diskNoEnv .absent = true
    ∧ save_secret_plain .absent "OpenAI" "sk-test1234" "My Key"
        = some { openai_keys := some [.obj { name := some "My Key", key := some "sk-test1234" }]
                 gemini_keys := some [] }
    ∧ dictNoEnv ({ openai_keys := some [.obj { name := some "My Key", key := some "sk-test1234" }]
                   gemini_keys := some [] } : DiskDict) = true
    ∧ dictNoEnv ({ openai_keys := some [], gemini_keys := some [] } : DiskDict) = true
    ∧ listNoEnv (load_secrets (.dict { openai_keys := some [], gemini_keys := some [] })
        none none none).openai_keys = true :=
  ⟨by decide,
    env_entries_front_and_never_persisted.1 .absent none none "sk-env" (by decide),
    env_entries_front_and_never_persisted.2.2.1 .absent (some "sk-env") none "pw" [1],
    by decide,
    env_entries_front_and_never_persisted.2.2.2.1 .absent none none
      "OpenAI" "n" "k" "pw" [2] true _ (by decide),
    by decide,
    by decide,
    env_entries_front_and_never_persisted.2.2.2.2.1 .absent
      "OpenAI" "sk-test1234" "My Key" _ (by decide) (by decide),
    by decide,
    (env_entries_front_and_never_persisted.2.2.2.2.2
      { openai_keys := some [], gemini_keys := some [] } none (by decide)).1⟩
